import Mathlib

/-!
Verification of the octanebrew-platform ingestion/search/highlight core.

This file shallowly embeds the Python source under `src/` into Lean:
pure fragments become Lean functions, stateful loops become explicit
state-passing functions, external effects (Kafka produce, Elasticsearch
writes, Postgres writes, Redis script calls) become values of explicit
effect/event types, and external services (AI gateway, chunker) become
oracle parameters.  Python floats are modelled as rationals (ℚ); Python
ints as ℤ/ℕ.  Each definition cites the source file and lines it embeds.
-/

/- ------------------------------------------------------------------
   Oplog rows and the pass-2 failure handler
   Source: src/services/ingestion/src/ingestion/worker.py
   ------------------------------------------------------------------ -/

/-- Status column of the `ai_oplog` table (spec section 3; values written by
`consumer.py` (PENDING via the INSERT default), `worker.py` lines 90-101
(PROCESSING), 115-117 (COMPLETED) and 189-202 (RETRY).  FAILED appears in
the spec's data model; the code never writes it. -/
inductive OplogStatus where
  | PENDING
  | PROCESSING
  | RETRY
  | COMPLETED
  | FAILED
  deriving DecidableEq, Repr

/-- The columns of an `ai_oplog` row that the pass-2 failure path touches
(`worker.py` lines 189-202).  Timestamps are wall-clock seconds as ℚ. -/
structure OplogRow where
  retry_count : Nat
  status : OplogStatus
  error_message : Option String
  next_attempt_at : ℚ
  deriving DecidableEq, Repr

/-- Embeds `JobProcessor.handle_failure` (`worker.py` lines 189-202):
`retry_count = job['retry_count'] + 1`; `delay = (2 ** retry_count) * 60`;
then one UPDATE setting status RETRY, the incremented retry_count,
`next_attempt_at = NOW() + delay seconds` and the error message. -/
def handle_failure (now : ℚ) (error : String) (row : OplogRow) : OplogRow :=
  let retry_count := row.retry_count + 1
  let delay : Nat := 2 ^ retry_count * 60
  { retry_count := retry_count
    status := OplogStatus.RETRY
    error_message := some error
    next_attempt_at := now + (delay : ℚ) }

/-- The backoff delay (in seconds) a row would be given on its next failure:
`(2 ** (retry_count + 1)) * 60` with the post-increment count, exactly as
computed inside `handle_failure`. -/
def next_failure_delay (row : OplogRow) : Nat :=
  2 ^ (row.retry_count + 1) * 60

/-- Embeds the claim step of `JobProcessor.process_batch` (`worker.py`
lines 90-101): a claimed row is set to PROCESSING before execution. -/
def claim_row (row : OplogRow) : OplogRow :=
  { row with status := OplogStatus.PROCESSING }

/-- One full failing pass-2 cycle for a row: it is claimed (PROCESSING) and
its job raises, so `handle_failure` runs (`worker.py` lines 108-123,
failure branch). -/
def failing_cycle (now : ℚ) (error : String) (row : OplogRow) : OplogRow :=
  handle_failure now error (claim_row row)

/-- A row after `n` consecutive failing pass-2 cycles starting from `row`. -/
def fail_loop (now : ℚ) (error : String) (row : OplogRow) : Nat → OplogRow
  | 0 => row
  | n + 1 => failing_cycle now error (fail_loop now error row n)

/-- A freshly inserted oplog row as pass 1 creates it: PENDING with zero
retries (spec section 3 lifecycle; `consumer.py` lines 108-120 insert with
column defaults). -/
def fresh_oplog_row : OplogRow :=
  { retry_count := 0
    status := OplogStatus.PENDING
    error_message := none
    next_attempt_at := 0 }

theorem fail_loop_retry_count (now : ℚ) (error : String) (row : OplogRow) :
    ∀ n : Nat, (fail_loop now error row n).retry_count = row.retry_count + n := by
  intro n
  induction n with
  | zero => rfl
  | succ k ih =>
      simp [fail_loop, failing_cycle, handle_failure, claim_row, ih]
      ring

theorem fail_loop_status (now : ℚ) (error : String) (row : OplogRow) :
    ∀ n : Nat, (fail_loop now error row (n + 1)).status = OplogStatus.RETRY := by
  intro n
  simp [fail_loop, failing_cycle, handle_failure]

/-- C4: on a claimed pass-2 job failure the worker increments `retry_count`,
sets status RETRY, records the error message, and sets `next_attempt_at` to
`now + 2^retry_count · 60` seconds with the post-increment `retry_count`;
consequently the delay assigned on the next failure is exactly twice the
delay assigned on this one. -/
theorem c4_failure_backoff (now : ℚ) (error : String) (row : OplogRow) :
    (handle_failure now error row).retry_count = row.retry_count + 1 ∧
    (handle_failure now error row).status = OplogStatus.RETRY ∧
    (handle_failure now error row).error_message = some error ∧
    (handle_failure now error row).next_attempt_at
      = now + ((2 ^ (row.retry_count + 1) * 60 : Nat) : ℚ) ∧
    next_failure_delay (handle_failure now error row)
      = 2 * next_failure_delay row := by
  refine ⟨rfl, rfl, rfl, rfl, ?_⟩
  simp [next_failure_delay, handle_failure]
  ring

/-- C5 counterexample: the claim asserts a configured retry cap exists after
which a permanently failing row is marked FAILED.  In the code
(`worker.py` lines 189-202) every failure sets status RETRY unconditionally
and nothing ever writes FAILED, so a fresh row that fails on every attempt
is never marked FAILED, at no attempt count. -/
theorem c5_counterexample :
    ¬ ∃ cap : Nat,
        (fail_loop 0 "upstream unavailable" fresh_oplog_row (cap + 1)).status
          = OplogStatus.FAILED := by
  rintro ⟨cap, hcap⟩
  rw [fail_loop_status] at hcap
  exact absurd hcap (by simp)

/-- C5 amended: the code has no retry cap: a row that fails on every attempt
is rescheduled to RETRY on each failure (never FAILED), with `retry_count`
growing by one per failure; capping is left to operator policy outside the
code. -/
theorem c5_no_retry_cap (n : Nat) (hn : 1 ≤ n) (now : ℚ) (error : String)
    (row : OplogRow) :
    (fail_loop now error row n).status = OplogStatus.RETRY ∧
    (fail_loop now error row n).status ≠ OplogStatus.FAILED ∧
    (fail_loop now error row n).retry_count = row.retry_count + n := by
  obtain ⟨k, rfl⟩ : ∃ k, n = k + 1 := ⟨n - 1, by omega⟩
  refine ⟨fail_loop_status now error row k, ?_, fail_loop_retry_count now error row (k + 1)⟩
  rw [fail_loop_status]
  simp

/-- Witness for C5 amended at a concrete input: three consecutive failures on
a fresh row leave it in RETRY with retry_count 3. -/
theorem c5_no_retry_cap_witness :
    (1 : Nat) ≤ 3 ∧
    ((fail_loop 0 "boom" fresh_oplog_row 3).status = OplogStatus.RETRY ∧
     (fail_loop 0 "boom" fresh_oplog_row 3).status ≠ OplogStatus.FAILED ∧
     (fail_loop 0 "boom" fresh_oplog_row 3).retry_count
       = fresh_oplog_row.retry_count + 3) :=
  ⟨by norm_num, c5_no_retry_cap 3 (by norm_num) 0 "boom" fresh_oplog_row⟩

/- ------------------------------------------------------------------
   Token-bucket rate limiter
   Source: src/services/ingestion/src/ingestion/core/limiter.py,
   TOKEN_BUCKET_LUA (lines 8-36) and check_rate_limit (lines 38-55).
   ------------------------------------------------------------------ -/

/-- Per-key limiter state stored in Redis: the hash fields `tokens` and
`last_refill` (limiter.py lines 14-16, 29, 33). -/
structure Bucket where
  tokens : ℚ
  last_refill : ℚ
  deriving DecidableEq, Repr

/-- The refill phase of the Lua script (limiter.py lines 18-25): a missing
key initializes a full bucket; otherwise
`elapsed = max(0, now - last_refill)` and
`tokens = min(capacity, tokens + elapsed * refill_rate)`, with
`last_refill` set to `now` in both branches. -/
def bucket_refill (capacity refill_rate now : ℚ) : Option Bucket → Bucket
  | none => { tokens := capacity, last_refill := now }
  | some b =>
      { tokens := min capacity (b.tokens + max 0 (now - b.last_refill) * refill_rate)
        last_refill := now }

/-- One full execution of the Lua script (limiter.py lines 8-36): refill,
then if `tokens >= 1` consume one token and return allow (1), else store
the refilled tokens unchanged and return deny (0). -/
def token_bucket_call (capacity refill_rate now : ℚ) (st : Option Bucket) :
    Bool × Bucket :=
  let b := bucket_refill capacity refill_rate now st
  if 1 ≤ b.tokens then
    (true, { tokens := b.tokens - 1, last_refill := b.last_refill })
  else
    (false, b)

/-- A sequence of limiter calls on one key at the given wall-clock times,
returning the number of allowed calls and the final stored state. -/
def run_bucket (capacity refill_rate : ℚ) : List ℚ → Option Bucket → Nat × Option Bucket
  | [], st => (0, st)
  | t :: ts, st =>
      let res := token_bucket_call capacity refill_rate t st
      let rest := run_bucket capacity refill_rate ts (some res.2)
      (if res.1 then rest.1 + 1 else rest.1, rest.2)

theorem run_bucket_invariant (c r hi : ℚ) (hc : 0 ≤ c) (hr : 0 ≤ r) :
    ∀ (ts : List ℚ) (b : Bucket),
      List.Chain' (· ≤ ·) (b.last_refill :: ts) →
      (∀ t ∈ ts, t ≤ hi) →
      b.last_refill ≤ hi →
      0 ≤ b.tokens → b.tokens ≤ c →
      ∃ b' : Bucket,
        (run_bucket c r ts (some b)).2 = some b' ∧
        0 ≤ b'.tokens ∧ b'.tokens ≤ c ∧
        b.last_refill ≤ b'.last_refill ∧ b'.last_refill ≤ hi ∧
        ((run_bucket c r ts (some b)).1 : ℚ) + b'.tokens
          ≤ b.tokens + r * (b'.last_refill - b.last_refill) := by
  intro ts
  induction ts with
  | nil =>
      intro b _ _ hbhi hb0 hbc
      exact ⟨b, rfl, hb0, hbc, le_refl _, hbhi, by simp [run_bucket]⟩
  | cons t ts ih =>
      intro b hchain hmem hbhi hb0 hbc
      have hbt : b.last_refill ≤ t := (List.chain'_cons.mp hchain).1
      have hchain' : List.Chain' (· ≤ ·) (t :: ts) := (List.chain'_cons.mp hchain).2
      have hthi : t ≤ hi := hmem t (by simp)
      have hmem' : ∀ u ∈ ts, u ≤ hi := fun u hu => hmem u (by simp [hu])
      set tok1 : ℚ := min c (b.tokens + max 0 (t - b.last_refill) * r) with htok1
      have htok1_le_cap : tok1 ≤ c := min_le_left _ _
      have htok1_le : tok1 ≤ b.tokens + (t - b.last_refill) * r := by
        have : max 0 (t - b.last_refill) = t - b.last_refill :=
          max_eq_right (by linarith)
        calc tok1 ≤ b.tokens + max 0 (t - b.last_refill) * r := min_le_right _ _
          _ = b.tokens + (t - b.last_refill) * r := by rw [this]
      have htok1_nonneg : 0 ≤ tok1 := by
        apply le_min hc
        have h1 : 0 ≤ max 0 (t - b.last_refill) := le_max_left _ _
        nlinarith
      by_cases hallow : 1 ≤ tok1
      · -- allow branch: consume one token
        obtain ⟨b', hb'eq, hb'0, hb'c, hb'mono, hb'hi, hb'sum⟩ :=
          ih { tokens := tok1 - 1, last_refill := t }
            (by simpa using hchain') hmem' hthi (by simp; linarith)
            (by simp; linarith)
        refine ⟨b', ?_, hb'0, hb'c, le_trans hbt (by simpa using hb'mono), hb'hi, ?_⟩
        · simpa [run_bucket, token_bucket_call, bucket_refill, ← htok1, hallow] using hb'eq
        · have hrun :
              (run_bucket c r (t :: ts) (some b)).1
                = (run_bucket c r ts (some { tokens := tok1 - 1, last_refill := t })).1 + 1 := by
            simp [run_bucket, token_bucket_call, bucket_refill, ← htok1, hallow]
          rw [hrun]
          push_cast
          have hmul : r * (t - b.last_refill) = (t - b.last_refill) * r := mul_comm _ _
          simp only [Bucket.mk.injEq] at hb'sum
          have h2 : (t - b.last_refill) * r ≥ 0 := by
            have : 0 ≤ t - b.last_refill := by linarith
            positivity
          nlinarith [hb'sum]
      · -- deny branch: tokens stored unchanged
        obtain ⟨b', hb'eq, hb'0, hb'c, hb'mono, hb'hi, hb'sum⟩ :=
          ih { tokens := tok1, last_refill := t }
            (by simpa using hchain') hmem' hthi (by simpa using htok1_nonneg)
            (by simpa using htok1_le_cap)
        refine ⟨b', ?_, hb'0, hb'c, le_trans hbt (by simpa using hb'mono), hb'hi, ?_⟩
        · simpa [run_bucket, token_bucket_call, bucket_refill, ← htok1, hallow] using hb'eq
        · have hrun :
              (run_bucket c r (t :: ts) (some b)).1
                = (run_bucket c r ts (some { tokens := tok1, last_refill := t })).1 := by
            simp [run_bucket, token_bucket_call, bucket_refill, ← htok1, hallow]
          rw [hrun]
          simp only [Bucket.mk.injEq] at hb'sum
          have h2 : (t - b.last_refill) * r ≥ 0 := by
            have : 0 ≤ t - b.last_refill := by linarith
            positivity
          nlinarith [hb'sum]

/-- C9: for a key with capacity C and refill rate R, and any sequence of
calls whose (nondecreasing) wall-clock times fall in an interval
[a, a + T], the limiter returns allow at most C + floor(R·T) times —
regardless of the key's prior state, provided that state is one the script
itself could have stored (0 ≤ tokens ≤ capacity) or the key is absent. -/
theorem c9_token_bucket_interval_bound (C : ℕ) (r T a : ℚ) (times : List ℚ)
    (st : Option Bucket)
    (hchain : List.Chain' (· ≤ ·) times)
    (hmem : ∀ t ∈ times, a ≤ t ∧ t ≤ a + T)
    (hr : 0 ≤ r) (hT : 0 ≤ T)
    (hst : ∀ b, st = some b → 0 ≤ b.tokens ∧ b.tokens ≤ (C : ℚ)) :
    ((run_bucket (C : ℚ) r times st).1 : ℤ) ≤ (C : ℤ) + ⌊r * T⌋ := by
  have hfloor : (0 : ℤ) ≤ ⌊r * T⌋ := by
    apply Int.floor_nonneg.mpr
    positivity
  cases times with
  | nil =>
      simp only [run_bucket]
      push_cast
      omega
  | cons t1 ts =>
      have ht1 : a ≤ t1 ∧ t1 ≤ a + T := hmem t1 (by simp)
      have hchain' : List.Chain' (· ≤ ·) ts := hchain.tail
      have hchainT : List.Chain' (· ≤ ·) (t1 :: ts) := hchain
      -- state after the first call
      set b1 := bucket_refill (C : ℚ) r t1 st with hb1
      have hb1last : b1.last_refill = t1 := by
        cases st <;> simp [bucket_refill, hb1]
      have hb1cap : b1.tokens ≤ (C : ℚ) := by
        cases st with
        | none => simp [bucket_refill, hb1]
        | some b => simp [bucket_refill, hb1]
      have hb1nonneg : 0 ≤ b1.tokens := by
        cases st with
        | none => simp [bucket_refill, hb1]
        | some b =>
            have hb := hst b rfl
            simp only [bucket_refill, hb1]
            apply le_min (by positivity)
            have h1 : 0 ≤ max 0 (t1 - b.last_refill) := le_max_left _ _
            nlinarith [hb.1]
      by_cases hallow : 1 ≤ b1.tokens
      · obtain ⟨b', hb'eq, hb'0, hb'c, hb'mono, hb'hi, hb'sum⟩ :=
          run_bucket_invariant (C : ℚ) r (a + T) (by positivity) hr ts
            { tokens := b1.tokens - 1, last_refill := t1 }
            (by simpa [hb1last] using hchainT) (fun u hu => (hmem u (by simp [hu])).2)
            ht1.2 (by simp; linarith) (by simp; linarith)
        have hrun :
            (run_bucket (C : ℚ) r (t1 :: ts) st).1
              = (run_bucket (C : ℚ) r ts
                  (some { tokens := b1.tokens - 1, last_refill := t1 })).1 + 1 := by
          simp [run_bucket, token_bucket_call, ← hb1, hallow, hb1last]
        rw [hrun]
        have hlastT : b'.last_refill - t1 ≤ T := by
          simp only [Bucket.mk.injEq] at hb'mono hb'hi
          linarith [ht1.1]
        have hmul : r * (b'.last_refill - t1) ≤ r * T :=
          mul_le_mul_of_nonneg_left hlastT hr
        simp only [Bucket.mk.injEq] at hb'sum
        have hQ : ((run_bucket (C : ℚ) r ts
            (some { tokens := b1.tokens - 1, last_refill := t1 })).1 + 1 : ℚ)
              ≤ (C : ℚ) + r * T := by
          nlinarith [hb'sum]
        have hZ : ((run_bucket (C : ℚ) r ts
            (some { tokens := b1.tokens - 1, last_refill := t1 })).1 + 1 : ℤ) - (C : ℤ)
              ≤ ⌊r * T⌋ :=
          Int.le_floor.mpr (by push_cast; linarith)
        omega
      · obtain ⟨b', hb'eq, hb'0, hb'c, hb'mono, hb'hi, hb'sum⟩ :=
          run_bucket_invariant (C : ℚ) r (a + T) (by positivity) hr ts b1
            (by simpa [hb1last] using hchainT) (fun u hu => (hmem u (by simp [hu])).2)
            (by rw [hb1last]; exact ht1.2) hb1nonneg hb1cap
        have hrun :
            (run_bucket (C : ℚ) r (t1 :: ts) st).1
              = (run_bucket (C : ℚ) r ts (some b1)).1 := by
          simp [run_bucket, token_bucket_call, ← hb1, hallow]
        rw [hrun]
        have hlastT : b'.last_refill - t1 ≤ T := by
          rw [hb1last] at hb'mono
          linarith [ht1.1, hb'hi]
        have hmul : r * (b'.last_refill - t1) ≤ r * T :=
          mul_le_mul_of_nonneg_left hlastT hr
        rw [hb1last] at hb'sum
        have hQ : ((run_bucket (C : ℚ) r ts (some b1)).1 : ℚ) ≤ (C : ℚ) + r * T := by
          nlinarith [hb'sum]
        have hZ : ((run_bucket (C : ℚ) r ts (some b1)).1 : ℤ) - (C : ℤ) ≤ ⌊r * T⌋ :=
          Int.le_floor.mpr (by push_cast; linarith)
        omega

/-- Witness for C9 at a concrete input: capacity 2, refill 1/2, interval
[0, 2], three calls at times 0, 1, 2 from a fresh key. -/
theorem c9_token_bucket_interval_bound_witness :
    List.Chain' (· ≤ ·) [(0 : ℚ), 1, 2] ∧
    (∀ t ∈ [(0 : ℚ), 1, 2], (0 : ℚ) ≤ t ∧ t ≤ 0 + 2) ∧
    (0 : ℚ) ≤ 1 / 2 ∧ (0 : ℚ) ≤ 2 ∧
    ((run_bucket ((2 : ℕ) : ℚ) (1 / 2) [(0 : ℚ), 1, 2] none).1 : ℤ)
      ≤ ((2 : ℕ) : ℤ) + ⌊(1 / 2 : ℚ) * 2⌋ := by
  refine ⟨?_, ?_, by norm_num, by norm_num, ?_⟩
  · simp only [List.chain'_cons, List.chain'_singleton, and_true]
    norm_num
  · intro t ht
    fin_cases ht <;> norm_num
  · exact c9_token_bucket_interval_bound 2 (1 / 2) 2 0 [0, 1, 2] none
      (by simp only [List.chain'_cons, List.chain'_singleton, and_true]; norm_num)
      (by intro t ht; fin_cases ht <;> norm_num)
      (by norm_num) (by norm_num) (by simp)

theorem burst_all_allowed (C : ℕ) (r t : ℚ) :
    ∀ n k : ℕ, n + k ≤ C →
      run_bucket (C : ℚ) r (List.replicate n t)
          (some { tokens := (C : ℚ) - (k : ℚ), last_refill := t })
        = (n, some { tokens := (C : ℚ) - ((k + n : ℕ) : ℚ), last_refill := t }) := by
  intro n
  induction n with
  | zero =>
      intro k _
      simp [run_bucket, List.replicate]
  | succ m ih =>
      intro k hk
      have hky : ((k : ℚ)) + 1 ≤ (C : ℚ) := by
        have : k + 1 ≤ C := by omega
        exact_mod_cast this
      have hrefill :
          bucket_refill (C : ℚ) r t
              (some { tokens := (C : ℚ) - (k : ℚ), last_refill := t })
            = { tokens := (C : ℚ) - (k : ℚ), last_refill := t } := by
        simp only [bucket_refill, Bucket.mk.injEq]
        constructor
        · rw [sub_self, max_self, zero_mul, add_zero]
          exact min_eq_right (by linarith)
        · trivial
      have hallow : 1 ≤ ((C : ℚ) - (k : ℚ)) := by linarith
      have hstep := ih (k + 1) (by omega)
      have harith : (C : ℚ) - (k : ℚ) - 1 = (C : ℚ) - ((k + 1 : ℕ) : ℚ) := by
        push_cast
        ring
      have hidx : k + 1 + m = k + (m + 1) := by omega
      simp only [List.replicate, run_bucket, token_bucket_call, hrefill, hallow,
        if_pos, harith, hstep, hidx]

/-- C10: a key the limiter has never seen (or whose Redis state expired
after the one-hour idle TTL set at limiter.py line 30) is initialized with
a full bucket of `capacity` tokens (limiter.py lines 18-20); hence for any
capacity ≥ 1 the first call on a fresh key returns allow, and a burst of
n ≤ capacity calls at one instant on a fresh key is allowed in full. -/
theorem c10_fresh_key_full_bucket (C : ℕ) (hC : 1 ≤ C) (r t : ℚ) (n : ℕ)
    (hn : n ≤ C) :
    (bucket_refill (C : ℚ) r t none).tokens = (C : ℚ) ∧
    (token_bucket_call (C : ℚ) r t none).1 = true ∧
    (run_bucket (C : ℚ) r (List.replicate n t) none).1 = n := by
  have hC1 : (1 : ℚ) ≤ (C : ℚ) := by exact_mod_cast hC
  refine ⟨rfl, ?_, ?_⟩
  · simp [token_bucket_call, bucket_refill, hC1]
  · cases n with
    | zero => simp [run_bucket]
    | succ m =>
        have hfirst :
            token_bucket_call (C : ℚ) r t none
              = (true, { tokens := (C : ℚ) - 1, last_refill := t }) := by
          simp [token_bucket_call, bucket_refill, hC1]
        have harith : (C : ℚ) - 1 = (C : ℚ) - ((1 : ℕ) : ℚ) := by norm_num
        have hrest := burst_all_allowed C r t m 1 (by omega)
        simp only [List.replicate, run_bucket, hfirst, harith, hrest]
        simp

/-- Witness for C10 at a concrete input: capacity 3, a fresh key, a burst of
three calls at time 7. -/
theorem c10_fresh_key_full_bucket_witness :
    (1 : ℕ) ≤ 3 ∧ (3 : ℕ) ≤ 3 ∧
    ((bucket_refill ((3 : ℕ) : ℚ) 1 7 none).tokens = ((3 : ℕ) : ℚ) ∧
     (token_bucket_call ((3 : ℕ) : ℚ) 1 7 none).1 = true ∧
     (run_bucket ((3 : ℕ) : ℚ) 1 (List.replicate 3 7) none).1 = 3) :=
  ⟨by norm_num, by norm_num, c10_fresh_key_full_bucket 3 (by norm_num) 1 7 3 (by norm_num)⟩

/- ------------------------------------------------------------------
   Highlight clip consolidation
   Source: src/services/highlight-worker/src/highlight_worker/consolidation.py,
   consolidate_clips (lines 8-99).
   ------------------------------------------------------------------ -/

/-- A clip window dict `{start, end, score, peak_second}` as built by
`consolidate_clips`.  The source's `end` key is named `stop` here because
`end` is a Lean keyword.  Seconds are ℤ, scores are ℚ (Python float). -/
structure Clip where
  start : ℤ
  stop : ℤ
  score : ℚ
  peak_second : ℤ
  deriving DecidableEq, Repr

/-- Python `qualified.get(s, 0)`: dict lookup with default 0.  The dict is
modelled as an association list with distinct keys. -/
def qlookup (qualified : List (ℤ × ℚ)) (s : ℤ) : ℚ :=
  match qualified with
  | [] => 0
  | p :: rest => if p.1 = s then p.2 else qlookup rest s

/-- Stable insertion step for ascending integer sort (Python
`sorted(qualified.keys())`, consolidation.py line 33). -/
def insert_int (x : ℤ) : List ℤ → List ℤ
  | [] => [x]
  | y :: ys => if y ≤ x then y :: insert_int x ys else x :: y :: ys

/-- Python `sorted` on a list of ints (stable, ascending). -/
def sort_ints (l : List ℤ) : List ℤ :=
  l.foldl (fun acc x => insert_int x acc) []

/-- The cluster-building loop (consolidation.py lines 36-45): walk the
sorted seconds, appending to the current cluster while the step from the
previous second is ≤ min_gap, else closing the cluster.  `prev` is the
previously visited second (always the current cluster's last element). -/
def cluster_go (min_gap : ℤ) (cur : List ℤ) (prev : ℤ) : List ℤ → List (List ℤ)
  | [] => [cur]
  | x :: xs =>
      if x - prev ≤ min_gap then cluster_go min_gap (cur ++ [x]) x xs
      else cur :: cluster_go min_gap [x] x xs

/-- Clusters of consecutive seconds (consolidation.py lines 36-45); the
input list is nonempty in the source (`qualified` is nonempty there). -/
def clusterize (min_gap : ℤ) : List ℤ → List (List ℤ)
  | [] => []
  | s :: rest => cluster_go min_gap [s] s rest

/-- Python `max(f(s) for s in cluster)` over a nonempty cluster
`x :: xs` (consolidation.py line 54). -/
def list_max_from (f : ℤ → ℚ) (x : ℤ) (xs : List ℤ) : ℚ :=
  xs.foldl (fun acc s => max acc (f s)) (f x)

/-- Python `max(cluster, key=f)` over a nonempty cluster `x :: xs`
(consolidation.py line 55): keeps the first element of maximal key
(replacement only on strict increase). -/
def argmax_from (f : ℤ → ℚ) (x : ℤ) (xs : List ℤ) : ℤ :=
  xs.foldl (fun best s => if f s > f best then s else best) x

/-- Python `round(x, 4)` modelled on ℚ.  CPython rounds half-to-even on
binary floats; this rational model rounds half away from zero at exact
ten-thousandth ties — the two agree everywhere the geometry claims below
look, and at every input used in this file. -/
def round4 (q : ℚ) : ℚ :=
  ((round (q * 10000) : ℤ) : ℚ) / 10000

/-- Step 3 of consolidate_clips (lines 47-62): a cluster becomes a raw clip
`{start = max(0, first - context_buffer), end = last + context_buffer,
score = round(peak, 4), peak_second = argmax}`.  The empty-cluster default
is unreachable: `clusterize` only yields nonempty clusters. -/
def raw_clip (qualified : List (ℤ × ℚ)) (context_buffer : ℤ) :
    List ℤ → Clip
  | [] => { start := 0, stop := 0, score := 0, peak_second := 0 }
  | c :: cs =>
      { start := max 0 (c - context_buffer)
        stop := cs.getLastD c + context_buffer
        score := round4 (list_max_from (qlookup qualified) c cs)
        peak_second := argmax_from (qlookup qualified) c cs }

/-- The merge loop body (consolidation.py lines 64-72): `last` is
`merged[-1]`; a clip starting within min_gap of `last.end` is folded into
it (max of ends, max of scores, start and peak kept), else `last` is
emitted and the clip becomes the new accumulator. -/
def merge_go (min_gap : ℤ) (last : Clip) : List Clip → List Clip
  | [] => [last]
  | c :: cs =>
      if c.start ≤ last.stop + min_gap then
        merge_go min_gap
          { last with stop := max last.stop c.stop, score := max last.score c.score } cs
      else last :: merge_go min_gap c cs

/-- Step 4 of consolidate_clips: merge overlapping clips, input already
sorted by start. -/
def merge_clips (min_gap : ℤ) : List Clip → List Clip
  | [] => []
  | c :: cs => merge_go min_gap c cs

/-- Stable insertion for Python's `sorted(..., key=lambda c: c["start"])`:
a new element goes after all elements with start ≤ its own. -/
def insert_by_start (c : Clip) : List Clip → List Clip
  | [] => [c]
  | x :: xs => if x.start ≤ c.start then x :: insert_by_start c xs else c :: x :: xs

/-- Python `sorted(l, key=lambda c: c["start"])` (stable, ascending). -/
def sort_by_start (l : List Clip) : List Clip :=
  l.foldl (fun acc c => insert_by_start c acc) []

/-- Step 5 of consolidate_clips (lines 74-86): clips shorter than
min_duration are expanded — `expand = (min_duration - duration) // 2`
(numerator positive, so Python floor division and Lean `Int` division
agree), `start = max(0, start - expand)`, `end = start + min_duration`
with the updated start; clips longer than max_duration are trimmed to
`end = start + max_duration`. -/
def constrain_clip (min_duration max_duration : ℤ) (c : Clip) : Clip :=
  let duration := c.stop - c.start
  if duration < min_duration then
    let expand := (min_duration - duration) / 2
    let start := max 0 (c.start - expand)
    { c with start := start, stop := start + min_duration }
  else if duration > max_duration then
    { c with stop := c.start + max_duration }
  else c

/-- Stable insertion for Python's
`sorted(..., key=lambda c: c["score"], reverse=True)`: a new element goes
after all elements with score ≥ its own. -/
def insert_by_score_desc (c : Clip) : List Clip → List Clip
  | [] => [c]
  | x :: xs =>
      if x.score ≥ c.score then x :: insert_by_score_desc c xs else c :: x :: xs

/-- Python `sorted(l, key=lambda c: c["score"], reverse=True)` (stable,
descending). -/
def sort_by_score_desc (l : List Clip) : List Clip :=
  l.foldl (fun acc c => insert_by_score_desc c acc) []

/-- Embeds `consolidate_clips` (consolidation.py lines 8-99) end to end:
empty-input guard, sort seconds, cluster, raw clips with context buffer,
merge, duration constraints, rank by score and cap at max_clips, re-sort
by start. -/
def consolidate_clips (qualified : List (ℤ × ℚ))
    (min_duration max_duration context_buffer min_gap : ℤ)
    (max_clips : ℕ) : List Clip :=
  if qualified = [] then []
  else
    let seconds := sort_ints (qualified.map Prod.fst)
    let clusters := clusterize min_gap seconds
    let raw := clusters.map (raw_clip qualified context_buffer)
    let merged := merge_clips min_gap (sort_by_start raw)
    let constrained := merged.map (constrain_clip min_duration max_duration)
    let ranked := sort_by_score_desc constrained
    let final := ranked.take max_clips
    sort_by_start final

theorem mem_insert_by_start (x c : Clip) (l : List Clip) :
    x ∈ insert_by_start c l ↔ x = c ∨ x ∈ l := by
  induction l with
  | nil => simp [insert_by_start]
  | cons y ys ih =>
      simp only [insert_by_start]
      split
      · simp only [List.mem_cons, ih]
        tauto
      · simp only [List.mem_cons]

theorem mem_sort_by_start_aux (x : Clip) :
    ∀ (l acc : List Clip),
      x ∈ l.foldl (fun acc c => insert_by_start c acc) acc ↔ x ∈ l ∨ x ∈ acc := by
  intro l
  induction l with
  | nil => simp
  | cons y ys ih =>
      intro acc
      simp only [List.foldl_cons, ih, mem_insert_by_start, List.mem_cons]
      tauto

theorem mem_sort_by_start (x : Clip) (l : List Clip) :
    x ∈ sort_by_start l ↔ x ∈ l := by
  simp [sort_by_start, mem_sort_by_start_aux]

theorem mem_insert_by_score_desc (x c : Clip) (l : List Clip) :
    x ∈ insert_by_score_desc c l ↔ x = c ∨ x ∈ l := by
  induction l with
  | nil => simp [insert_by_score_desc]
  | cons y ys ih =>
      simp only [insert_by_score_desc]
      split
      · simp only [List.mem_cons, ih]
        tauto
      · simp only [List.mem_cons]

theorem mem_sort_by_score_desc_aux (x : Clip) :
    ∀ (l acc : List Clip),
      x ∈ l.foldl (fun acc c => insert_by_score_desc c acc) acc ↔ x ∈ l ∨ x ∈ acc := by
  intro l
  induction l with
  | nil => simp
  | cons y ys ih =>
      intro acc
      simp only [List.foldl_cons, ih, mem_insert_by_score_desc, List.mem_cons]
      tauto

theorem mem_sort_by_score_desc (x : Clip) (l : List Clip) :
    x ∈ sort_by_score_desc l ↔ x ∈ l := by
  simp [sort_by_score_desc, mem_sort_by_score_desc_aux]

theorem length_insert_by_start (c : Clip) (l : List Clip) :
    (insert_by_start c l).length = l.length + 1 := by
  induction l with
  | nil => simp [insert_by_start]
  | cons y ys ih =>
      simp only [insert_by_start]
      split <;> simp [ih]

theorem length_sort_by_start_aux :
    ∀ (l acc : List Clip),
      (l.foldl (fun acc c => insert_by_start c acc) acc).length = l.length + acc.length := by
  intro l
  induction l with
  | nil => simp
  | cons y ys ih =>
      intro acc
      simp only [List.foldl_cons, ih, length_insert_by_start, List.length_cons]
      omega

theorem length_sort_by_start (l : List Clip) :
    (sort_by_start l).length = l.length := by
  simp [sort_by_start, length_sort_by_start_aux]

theorem constrain_clip_duration (min_duration max_duration : ℤ)
    (h : min_duration ≤ max_duration) (c : Clip) :
    min_duration ≤ (constrain_clip min_duration max_duration c).stop
        - (constrain_clip min_duration max_duration c).start ∧
    (constrain_clip min_duration max_duration c).stop
        - (constrain_clip min_duration max_duration c).start ≤ max_duration := by
  simp only [constrain_clip]
  split
  · simp
    omega
  · split
    · simp
      omega
    · simp
      omega

/-- C3 amended: for every nonempty qualified-seconds map with
min_duration ≤ max_duration, every clip returned by consolidation has
duration within [min_duration, max_duration] and at most max_clips clips
are returned.  (The pairwise-gap part of the claim is refuted by
`c3_counterexample` below: the min-duration expansion of step 5 can push
two adjacent clips to within — here onto — min_gap of each other.) -/
theorem c3_duration_and_count (qualified : List (ℤ × ℚ))
    (min_duration max_duration context_buffer min_gap : ℤ) (max_clips : ℕ)
    (hdur : min_duration ≤ max_duration) (hne : qualified ≠ []) :
    (∀ c ∈ consolidate_clips qualified min_duration max_duration
        context_buffer min_gap max_clips,
      min_duration ≤ c.stop - c.start ∧ c.stop - c.start ≤ max_duration) ∧
    (consolidate_clips qualified min_duration max_duration
        context_buffer min_gap max_clips).length ≤ max_clips := by
  constructor
  · intro c hc
    simp only [consolidate_clips, if_neg hne] at hc
    rw [mem_sort_by_start] at hc
    have hc2 : c ∈ sort_by_score_desc
        ((merge_clips min_gap (sort_by_start ((clusterize min_gap
            (sort_ints (qualified.map Prod.fst))).map
            (raw_clip qualified context_buffer)))).map
          (constrain_clip min_duration max_duration)) :=
      List.take_subset _ _ hc
    rw [mem_sort_by_score_desc] at hc2
    obtain ⟨m, _, rfl⟩ := List.mem_map.mp hc2
    exact constrain_clip_duration min_duration max_duration hdur m
  · simp only [consolidate_clips, if_neg hne]
    rw [length_sort_by_start]
    exact List.length_take_le _ _

/-- The claim's separation predicate: two clips are non-overlapping modulo
min_gap when one starts more than min_gap after the other ends. -/
def gap_separated (min_gap : ℤ) (c d : Clip) : Prop :=
  d.start - c.stop > min_gap ∨ c.start - d.stop > min_gap

instance (min_gap : ℤ) (c d : Clip) : Decidable (gap_separated min_gap c d) := by
  unfold gap_separated
  infer_instance

/-- C3 counterexample: qualified seconds {0 ↦ 1.0, 12 ↦ 1.0} with the
source defaults (min_duration 8, max_duration 60, context_buffer 3,
min_gap 5, max_clips 5) yield clips (0,8) and (8,16): step 5's
min-duration expansion makes them touch, so they are not separated by more
than min_gap = 5 — the claim's pairwise-gap invariant fails. -/
theorem c3_counterexample :
    [((0 : ℤ), (1 : ℚ)), (12, 1)] ≠ [] ∧
    (([((0 : ℤ), (1 : ℚ)), (12, 1)]).map Prod.fst).Nodup ∧
    consolidate_clips [((0 : ℤ), (1 : ℚ)), (12, 1)] 8 60 3 5 5
      = [{ start := 0, stop := 8, score := 1, peak_second := 0 },
         { start := 8, stop := 16, score := 1, peak_second := 12 }] ∧
    ¬ (consolidate_clips [((0 : ℤ), (1 : ℚ)), (12, 1)] 8 60 3 5 5).Pairwise
        (gap_separated 5) := by
  have heval : consolidate_clips [((0 : ℤ), (1 : ℚ)), (12, 1)] 8 60 3 5 5
      = [{ start := 0, stop := 8, score := 1, peak_second := 0 },
         { start := 8, stop := 16, score := 1, peak_second := 12 }] := by
    norm_num [consolidate_clips, sort_ints, insert_int, clusterize, cluster_go,
      raw_clip, qlookup, list_max_from, argmax_from, round4, round_eq,
      merge_clips, merge_go, sort_by_start, insert_by_start, constrain_clip,
      sort_by_score_desc, insert_by_score_desc]
    exact fun h => absurd h (by simp)
  refine ⟨by simp, by simp, heval, ?_⟩
  rw [heval]
  intro hpw
  have h2 := (List.pairwise_cons.mp hpw).1
    { start := 8, stop := 16, score := 1, peak_second := 12 } (by simp)
  simp only [gap_separated] at h2
  omega

/-- Witness for C3 amended at the same concrete input. -/
theorem c3_duration_and_count_witness :
    ((8 : ℤ) ≤ 60 ∧ [((0 : ℤ), (1 : ℚ)), (12, 1)] ≠ []) ∧
    ((∀ c ∈ consolidate_clips [((0 : ℤ), (1 : ℚ)), (12, 1)] 8 60 3 5 5,
        (8 : ℤ) ≤ c.stop - c.start ∧ c.stop - c.start ≤ 60) ∧
     (consolidate_clips [((0 : ℤ), (1 : ℚ)), (12, 1)] 8 60 3 5 5).length ≤ 5) :=
  ⟨⟨by norm_num, by simp⟩,
    c3_duration_and_count [((0 : ℤ), (1 : ℚ)), (12, 1)] 8 60 3 5 5
      (by norm_num) (by simp)⟩

/- ------------------------------------------------------------------
   Highlight job outcome events
   Source: src/services/highlight-worker/src/highlight_worker/main.py
   (consume, lines 101-142) and job.py (run_highlight_job, lines 46-291).
   ------------------------------------------------------------------ -/

/-- The result dict `run_highlight_job` returns on its non-raising paths
(job.py lines 184-191, 205-212, 267-274). -/
structure HighlightResult where
  videoId : String
  clipCount : Nat
  highlightsJsonPath : String
  durationMs : Nat
  vttUsed : Bool
  warnings : List String
  deriving DecidableEq, Repr

/-- Outcome topics of the highlight worker (main.py lines 26-29). -/
inductive OutcomeTopic where
  | complete
  | degraded
  | failed
  deriving DecidableEq, Repr

/-- Embeds the outcome choice of the consumer loop (main.py lines 107-111):
`if result.get("warnings"): topic = TOPIC_DEGRADED else: topic =
TOPIC_COMPLETE` — Python truthiness of the warnings list, i.e. emptiness.
The clip count is not consulted. -/
def choose_topic (result : HighlightResult) : OutcomeTopic :=
  if result.warnings ≠ [] then OutcomeTopic.degraded else OutcomeTopic.complete

/-- The result returned when no second qualifies (job.py lines 181-191):
`clipCount = 0`, empty manifest path, and `warnings` — initialized to `[]`
at line 59 and not appended to before this return — still empty. -/
def empty_qualified_result (videoId : String) (durationMs : Nat)
    (vttUsed : Bool) : HighlightResult :=
  { videoId := videoId
    clipCount := 0
    highlightsJsonPath := ""
    durationMs := durationMs
    vttUsed := vttUsed
    warnings := [] }

/-- C2 counterexample: a job whose scoring qualifies no seconds returns
`clipCount = 0` with zero warnings, and the consumer emits it on the
complete topic — the claim requires a zero-clip job to go to the degraded
topic, so its iff fails at this reachable terminal outcome. -/
theorem c2_counterexample :
    (empty_qualified_result "v1" 100 false).warnings = [] ∧
    (empty_qualified_result "v1" 100 false).clipCount = 0 ∧
    choose_topic (empty_qualified_result "v1" 100 false) = OutcomeTopic.complete ∧
    ¬ (choose_topic (empty_qualified_result "v1" 100 false) = OutcomeTopic.complete
        ↔ ((empty_qualified_result "v1" 100 false).warnings = []
            ∧ 1 ≤ (empty_qualified_result "v1" 100 false).clipCount)) := by
  refine ⟨rfl, rfl, rfl, fun h => ?_⟩
  have h2 := (h.mp rfl).2
  simp [empty_qualified_result] at h2

/-- C2 amended: for every highlight job that reaches a terminal outcome
without an unhandled error, the outcome event goes to the complete topic
iff the job produced zero warnings, and to the degraded topic iff it
produced at least one warning; the clip count plays no role (a zero-clip
zero-warning job is emitted complete with clipCount = 0). -/
theorem c2_outcome_topic (result : HighlightResult) :
    (choose_topic result = OutcomeTopic.complete ↔ result.warnings = []) ∧
    (choose_topic result = OutcomeTopic.degraded ↔ result.warnings ≠ []) := by
  unfold choose_topic
  by_cases h : result.warnings = [] <;> simp [h]

/- ------------------------------------------------------------------
   Pass-2 job execution and result events
   Source: src/services/ingestion/src/ingestion/worker.py,
   execute_job (lines 125-165) and emit_result (lines 167-187).
   ------------------------------------------------------------------ -/

/-- The result event payload built by `emit_result` (worker.py lines
171-178).  The AI summary is a parsed-JSON dict, modelled as an
association list of string fields. -/
structure ResultEvent where
  entity_id : String
  entity_type : Option String
  summary : List (String × String)
  index_name : Option String
  status : String
  ts : ℚ
  deriving DecidableEq, Repr

/-- The oplog-row payload as pass 1 serialized it (consumer.py lines
112-120, read back in worker.py lines 126-132). -/
structure JobPayload where
  entity_type : Option String
  chunks : Option (List String)
  text : Option String
  enrichments : List String
  chunk_size : Nat
  chunk_overlap : Nat
  chunking_strategy : String
  deriving DecidableEq, Repr

/-- The columns of a claimed oplog row handed to `execute_job`
(worker.py line 100). -/
structure OplogJob where
  id : Nat
  entity_id : String
  task_type : String
  payload : JobPayload
  retry_count : Nat
  target_index : Option String
  deriving DecidableEq, Repr

/-- External collaborators of the pass-2 worker as oracles: the AI gateway
embedding and summary endpoints (intelligence.py) and the chunker
(chunker.py).  `summarize` returns none when `generate_summary` returns
None (worker summarization failure paths, intelligence.py lines 85-90). -/
structure WorkerEnv where
  embed : List String → List (List ℚ)
  summarize : String → String → Option (List (String × String))
  chunk : String → List String

/-- Effects `execute_job` performs: the Elasticsearch vector update
(worker.py line 162 via indexer.py update_vectors) and the Kafka result
event (worker.py lines 182-185). -/
inductive WorkerAction where
  | update_vectors (entity_id : String) (chunks : List (String × List ℚ))
      (summary : Option (List (String × String))) (index_name : Option String)
  | emit (event : ResultEvent)
  deriving DecidableEq

/-- Python truthiness of an optional string (`if text:`). -/
def str_truthy : Option String → Bool
  | none => false
  | some t => t ≠ ""

/-- Python truthiness of an optional list (`if not chunks`). -/
def chunks_truthy : Option (List String) → Bool
  | none => false
  | some l => l ≠ []

/-- Embeds `JobProcessor.emit_result` (worker.py lines 167-187): `if not
summary: return` — a missing (None) or empty (falsy dict) summary emits
nothing; otherwise one event `{entity_id, entity_type, summary,
index_name, status: "completed", timestamp}` is produced. -/
def emit_result (ts : ℚ) (entity_id : String) (entity_type : Option String)
    (summary : Option (List (String × String))) (index_name : Option String) :
    List ResultEvent :=
  match summary with
  | none => []
  | some s =>
      if s = [] then []
      else
        [{ entity_id := entity_id
           entity_type := entity_type
           summary := s
           index_name := index_name
           status := "completed"
           ts := ts }]

/-- Embeds `JobProcessor.execute_job` (worker.py lines 125-165) for a row of
task_type embed/enrich: chunk when chunks are missing but text is present,
embed all chunks, generate a summary only when `"summary" in enrichments`
and text is truthy (with entity_type defaulted to "article",
worker.py line 159), update the document, then call emit_result with the
raw (un-defaulted) entity_type. -/
def execute_job (env : WorkerEnv) (ts : ℚ) (job : OplogJob) : List WorkerAction :=
  if job.task_type = "embed" ∨ job.task_type = "enrich" then
    let payload := job.payload
    let chunks :=
      if ¬ chunks_truthy payload.chunks ∧ str_truthy payload.text then
        some (env.chunk (payload.text.getD ""))
      else payload.chunks
    let nested :=
      if chunks_truthy chunks then
        (chunks.getD []).zip (env.embed (chunks.getD []))
      else []
    let summary :=
      if "summary" ∈ payload.enrichments ∧ str_truthy payload.text then
        env.summarize (payload.text.getD "") (payload.entity_type.getD "article")
      else none
    WorkerAction.update_vectors job.entity_id nested summary job.target_index ::
      (emit_result ts job.entity_id payload.entity_type summary job.target_index).map
        WorkerAction.emit
  else []

/-- The result events among a worker action list. -/
def result_events (actions : List WorkerAction) : List ResultEvent :=
  actions.filterMap fun a =>
    match a with
    | WorkerAction.emit e => some e
    | _ => none

/-- A concrete embed-only oplog job (enrichments empty), as pass 1 creates
for the spec's scenario 1 submission. -/
def c6_job : OplogJob :=
  { id := 1
    entity_id := "p1"
    task_type := "embed"
    payload :=
      { entity_type := some "blog_post"
        chunks := some ["Hi there."]
        text := some "Hi there."
        enrichments := []
        chunk_size := 500
        chunk_overlap := 50
        chunking_strategy := "recursive" }
    retry_count := 0
    target_index := none }

/-- A concrete worker environment whose AI gateway succeeds on every call. -/
def c6_env : WorkerEnv :=
  { embed := fun texts => texts.map (fun _ => [1, 2])
    summarize := fun _ _ => some [("overview", "a summary")]
    chunk := fun t => [t] }

/-- C6 counterexample: the embed-only job above completes successfully —
execute_job performs its document update (with nonempty chunks) — yet no
result event is emitted, because `emit_result` returns early when the
summary is falsy (worker.py lines 168-169) and embed-only jobs never
produce a summary.  The claim requires a result event for this job. -/
theorem c6_counterexample :
    c6_job.task_type = "embed" ∧
    c6_job.payload.enrichments = [] ∧
    execute_job c6_env 0 c6_job
      = [WorkerAction.update_vectors "p1" [("Hi there.", [1, 2])] none none] ∧
    result_events (execute_job c6_env 0 c6_job) = [] := by
  refine ⟨rfl, rfl, ?_, ?_⟩ <;>
    simp [execute_job, c6_env, c6_job, chunks_truthy, str_truthy, emit_result,
      result_events]

/-- C6 amended: a pass-2 job that completes successfully publishes a result
event `{entity_id, entity_type, summary, index_name, status: completed}`
iff its computed summary is truthy (present and non-empty); in particular
embed-only jobs, whose summary is never generated, publish nothing. -/
theorem c6_result_event (env : WorkerEnv) (ts : ℚ) (job : OplogJob)
    (h : job.task_type = "embed" ∨ job.task_type = "enrich") :
    result_events (execute_job env ts job)
      = match
          (if "summary" ∈ job.payload.enrichments ∧ str_truthy job.payload.text then
            env.summarize (job.payload.text.getD "")
              (job.payload.entity_type.getD "article")
          else none) with
        | none => []
        | some s =>
            if s = [] then []
            else
              [{ entity_id := job.entity_id
                 entity_type := job.payload.entity_type
                 summary := s
                 index_name := job.target_index
                 status := "completed"
                 ts := ts }] := by
  have hif : (job.task_type = "embed" ∨ job.task_type = "enrich") = True := by
    simp [h]
  simp only [execute_job, hif, if_true]
  set summary :=
    (if "summary" ∈ job.payload.enrichments ∧ str_truthy job.payload.text then
      env.summarize (job.payload.text.getD "") (job.payload.entity_type.getD "article")
    else none) with hsum
  cases summary with
  | none => simp [result_events, emit_result]
  | some s =>
      by_cases hs : s = [] <;>
        simp [result_events, emit_result, hs]

/-- The same concrete job but as an enrich task requesting a summary. -/
def c6_enrich_job : OplogJob :=
  { c6_job with
      task_type := "enrich"
      payload := { c6_job.payload with enrichments := ["summary"] } }

/-- Witness for C6 amended: an enrich job with a succeeding summary call
emits exactly one completed event. -/
theorem c6_result_event_witness :
    (c6_enrich_job.task_type = "embed" ∨ c6_enrich_job.task_type = "enrich") ∧
    result_events (execute_job c6_env 3 c6_enrich_job)
      = [{ entity_id := "p1"
           entity_type := some "blog_post"
           summary := [("overview", "a summary")]
           index_name := none
           status := "completed"
           ts := 3 }] := by
  refine ⟨Or.inr rfl, ?_⟩
  rw [c6_result_event c6_env 3 c6_enrich_job (Or.inr rfl)]
  simp [c6_enrich_job, c6_job, c6_env, str_truthy]

/- ------------------------------------------------------------------
   Pass-1 ingestion consumer
   Source: src/services/ingestion/src/ingestion/consumer.py, consume
   (lines 27-136), and processors/indexer.py, upsert_text (lines 33-44).
   ------------------------------------------------------------------ -/

/-- Per-message failure oracle: whether each fallible step of the
per-record try block (consumer.py lines 70-122) succeeds this time
(parse at line 72, Elasticsearch upsert at line 92, oplog INSERT at
lines 109-120). -/
structure ConsumerEnv where
  parse_ok : Bool
  upsert_ok : Bool
  oplog_ok : Bool
  deriving DecidableEq, Repr

/-- A consumed bus record (the fields of IngestRequest the consumer reads),
together with its failure oracle.  `text` is
`payload.get('text') or payload.get('content') or ""` before
sanitization (consumer.py line 76). -/
structure ConsumerMsg where
  env : ConsumerEnv
  operation : String
  source_app : String
  entity_id : String
  entity_type : Option String
  title : String
  text : String
  enrichments : List String
  index_name : Option String
  chunking_strategy : String
  chunk_size : Nat
  chunk_overlap : Nat
  deriving DecidableEq, Repr

/-- The document body written by pass 1 (consumer.py lines 84-91). -/
structure DocBody where
  source_app : String
  entity_id : String
  title : String
  content : String
  status : String
  deriving DecidableEq, Repr

/-- An `ai_oplog` row as pass 1 inserts it (consumer.py lines 108-120): a
plain INSERT, so the row is created with the PENDING default and the
serialized payload. -/
structure OplogInsertRow where
  entity_id : String
  task_type : String
  target_index : Option String
  payload_entity_type : Option String
  payload_chunks : Option (List String)
  payload_text : String
  payload_enrichments : List String
  status : OplogStatus
  deriving DecidableEq, Repr

/-- The two external stores pass 1 writes: the Elasticsearch documents
keyed by (index, entity_id) and the `ai_oplog` table as an append list. -/
structure IngestState where
  docs : List ((String × String) × DocBody)
  oplog : List OplogInsertRow
  deriving DecidableEq, Repr

/-- Python `index_name or self.index_name` (indexer.py line 34): a None or
empty index name falls back to the configured default. -/
def resolve_index (default_index : String) : Option String → String
  | none => default_index
  | some i => if i = "" then default_index else i

/-- Embeds `ElasticManager.upsert_text` (indexer.py lines 33-44):
`client.index(index, id, document)` is a full-document write keyed by the
primary key (index, id) — it replaces the existing document or creates
it. -/
def es_upsert (docs : List ((String × String) × DocBody)) (key : String × String)
    (body : DocBody) : List ((String × String) × DocBody) :=
  if docs.any (fun e => e.1 = key) then
    docs.map (fun e => if e.1 = key then (key, body) else e)
  else docs ++ [(key, body)]

/-- Observable external effects of one consumed record, in program order;
`commit` is `consumer.commit()` (consumer.py line 124), which commits the
consumer position, i.e. the offset after the last consumed record. -/
inductive ConsumerEffect where
  | doc_upsert (index : String) (entity_id : String)
  | oplog_insert (entity_id : String) (task_type : String)
  | commit (offset : Nat)
  deriving DecidableEq, Repr

/-- Embeds the per-record try block of `consume` (consumer.py lines 70-122),
with the HTML sanitizer and the chunker as oracle parameters: parse; if
operation is "index", sanitize, upsert the document with status
processing_vectors, and — only when the sanitized text is truthy —
pre-chunk unless the strategy is semantic and INSERT one oplog row whose
task_type is enrich when enrichments are non-empty, else embed.  Returns
the new store state, the effects that succeeded, and whether the whole
block ran without raising (an exception is caught at lines 126-128 and the
record is skipped). -/
def process_record (sanitize : String → String) (chunk : String → List String)
    (default_index : String) (st : IngestState) (m : ConsumerMsg) :
    IngestState × List ConsumerEffect × Bool :=
  if ¬ m.env.parse_ok then (st, [], false)
  else if m.operation = "index" then
    let text := sanitize m.text
    if ¬ m.env.upsert_ok then (st, [], false)
    else
      let index := resolve_index default_index m.index_name
      let body : DocBody :=
        { source_app := m.source_app
          entity_id := m.entity_id
          title := m.title
          content := text
          status := "processing_vectors" }
      let docs := es_upsert st.docs (index, m.entity_id) body
      if text ≠ "" then
        if ¬ m.env.oplog_ok then
          ({ st with docs := docs }, [ConsumerEffect.doc_upsert index m.entity_id], false)
        else
          let task_type := if m.enrichments ≠ [] then "enrich" else "embed"
          let row : OplogInsertRow :=
            { entity_id := m.entity_id
              task_type := task_type
              target_index := m.index_name
              payload_entity_type := m.entity_type
              payload_chunks :=
                if m.chunking_strategy ≠ "semantic" then some (chunk text) else none
              payload_text := text
              payload_enrichments := m.enrichments
              status := OplogStatus.PENDING }
          ({ docs := docs, oplog := st.oplog ++ [row] },
           [ConsumerEffect.doc_upsert index m.entity_id,
            ConsumerEffect.oplog_insert m.entity_id task_type], true)
      else
        ({ st with docs := docs }, [ConsumerEffect.doc_upsert index m.entity_id], true)
  else (st, [], true)

/-- The full `async for msg in consumer` loop (consumer.py lines 69-128):
records processed one at a time; after a record that does not raise,
`consumer.commit()` commits the position `pos + 1`; a raising record is
logged and skipped (no commit at that record) and the loop continues. -/
def consume_loop (sanitize : String → String) (chunk : String → List String)
    (default_index : String) :
    IngestState → Nat → List ConsumerMsg → IngestState × List ConsumerEffect
  | st, _, [] => (st, [])
  | st, pos, m :: rest =>
      let step := process_record sanitize chunk default_index st m
      let commit_effs : List ConsumerEffect :=
        if step.2.2 then [ConsumerEffect.commit (pos + 1)] else []
      let next := consume_loop sanitize chunk default_index step.1 (pos + 1) rest
      (next.1, step.2.1 ++ commit_effs ++ next.2)

/-- The offset the bus considers committed after a run: the last commit in
the effect trace. -/
def last_commit (effs : List ConsumerEffect) : Option Nat :=
  effs.foldl
    (fun acc e =>
      match e with
      | ConsumerEffect.commit k => some k
      | _ => acc)
    none

/-- The empty initial store state. -/
def empty_ingest_state : IngestState :=
  { docs := [], oplog := [] }

/-- A well-formed index Submission whose every step succeeds. -/
def c1_good_msg : ConsumerMsg :=
  { env := { parse_ok := true, upsert_ok := true, oplog_ok := true }
    operation := "index"
    source_app := "blog"
    entity_id := "p1"
    entity_type := some "blog_post"
    title := "Hello World"
    text := "Hi there."
    enrichments := []
    index_name := none
    chunking_strategy := "recursive"
    chunk_size := 500
    chunk_overlap := 50 }

/-- The same record but with a failing Elasticsearch upsert. -/
def c7_bad_msg : ConsumerMsg :=
  { c1_good_msg with
      env := { parse_ok := true, upsert_ok := false, oplog_ok := true } }

/-- Replaying one and the same Submission n times through pass 1 (fresh
stores at the start). -/
def consume_same (sanitize : String → String) (chunk : String → List String)
    (default_index : String) (m : ConsumerMsg) : Nat → IngestState
  | 0 => empty_ingest_state
  | n + 1 =>
      (process_record sanitize chunk default_index
        (consume_same sanitize chunk default_index m n) m).1

/-- The document primary key pass 1 writes under: (resolved index,
entity_id). -/
def c1_doc_key (default_index : String) (m : ConsumerMsg) : String × String :=
  (resolve_index default_index m.index_name, m.entity_id)

/-- The document body pass 1 writes for a message. -/
def c1_doc_body (sanitize : String → String) (m : ConsumerMsg) : DocBody :=
  { source_app := m.source_app
    entity_id := m.entity_id
    title := m.title
    content := sanitize m.text
    status := "processing_vectors" }

/-- The oplog row pass 1 inserts for a message (with truthy text). -/
def c1_oplog_row (sanitize : String → String) (chunk : String → List String)
    (m : ConsumerMsg) : OplogInsertRow :=
  { entity_id := m.entity_id
    task_type := if m.enrichments ≠ [] then "enrich" else "embed"
    target_index := m.index_name
    payload_entity_type := m.entity_type
    payload_chunks :=
      if m.chunking_strategy ≠ "semantic" then some (chunk (sanitize m.text)) else none
    payload_text := sanitize m.text
    payload_enrichments := m.enrichments
    status := OplogStatus.PENDING }

theorem consume_same_closed_form (sanitize : String → String)
    (chunk : String → List String) (default_index : String) (m : ConsumerMsg)
    (henv : m.env = { parse_ok := true, upsert_ok := true, oplog_ok := true })
    (hop : m.operation = "index") (htext : sanitize m.text ≠ "") :
    ∀ k : Nat,
      consume_same sanitize chunk default_index m (k + 1)
        = { docs := [(c1_doc_key default_index m, c1_doc_body sanitize m)]
            oplog := List.replicate (k + 1) (c1_oplog_row sanitize chunk m) } := by
  intro k
  induction k with
  | zero =>
      simp [consume_same, process_record, empty_ingest_state, es_upsert, henv, hop,
        htext, c1_doc_key, c1_doc_body, c1_oplog_row]
  | succ j ih =>
      show (process_record sanitize chunk default_index
          (consume_same sanitize chunk default_index m (j + 1)) m).1 = _
      rw [ih]
      simp [process_record, es_upsert, henv, hop, htext, c1_doc_key, c1_doc_body,
        c1_oplog_row, List.replicate_succ']

/-- C1 counterexample: replaying the same Submission twice through pass 1
leaves exactly one indexed document (the upsert is keyed by the primary
key) but two PENDING oplog rows — the INSERT at consumer.py lines 109-120
carries no de-duplication (no ON CONFLICT, and the schema per spec section
6.3 has no unique key), so the claim's "exactly one non-COMPLETED oplog
row" fails on the second replay. -/
theorem c1_counterexample :
    (consume_same id (fun t => [t]) "content_hub" c1_good_msg 2).docs.length = 1 ∧
    ((consume_same id (fun t => [t]) "content_hub" c1_good_msg 2).oplog.filter
        (fun r => r.status ≠ OplogStatus.COMPLETED)).length = 2 ∧
    ((consume_same id (fun t => [t]) "content_hub" c1_good_msg 2).oplog.filter
        (fun r => r.status ≠ OplogStatus.COMPLETED)).length ≠ 1 := by
  rw [consume_same_closed_form id (fun t => [t]) "content_hub" c1_good_msg rfl rfl
    (by simp [c1_good_msg])]
  refine ⟨rfl, ?_, ?_⟩ <;> simp [c1_oplog_row, c1_good_msg]

/-- C1 amended: pass-1 ingestion is idempotent on the document side only:
the upsert is keyed by the document primary key (index_name, entity_id),
so replaying the same Submission n ≥ 1 times yields exactly one indexed
document in status processing_vectors; the oplog insert is NOT
de-duplicated, so the n replays leave n identical non-COMPLETED (PENDING)
oplog rows. -/
theorem c1_pass1_replay (sanitize : String → String)
    (chunk : String → List String) (default_index : String) (m : ConsumerMsg)
    (n : Nat)
    (henv : m.env = { parse_ok := true, upsert_ok := true, oplog_ok := true })
    (hop : m.operation = "index") (htext : sanitize m.text ≠ "") (hn : 1 ≤ n) :
    (consume_same sanitize chunk default_index m n).docs
      = [(c1_doc_key default_index m, c1_doc_body sanitize m)] ∧
    (c1_doc_body sanitize m).status = "processing_vectors" ∧
    (consume_same sanitize chunk default_index m n).oplog.length = n ∧
    ∀ r ∈ (consume_same sanitize chunk default_index m n).oplog,
      r.status = OplogStatus.PENDING ∧ r.status ≠ OplogStatus.COMPLETED := by
  obtain ⟨k, rfl⟩ : ∃ k, n = k + 1 := ⟨n - 1, by omega⟩
  rw [consume_same_closed_form sanitize chunk default_index m henv hop htext k]
  refine ⟨rfl, rfl, by simp, ?_⟩
  intro r hr
  rw [List.eq_of_mem_replicate hr]
  simp [c1_oplog_row]

/-- Witness for C1 amended at a concrete input: three replays of the
concrete Submission above. -/
theorem c1_pass1_replay_witness :
    (c1_good_msg.env = { parse_ok := true, upsert_ok := true, oplog_ok := true } ∧
     c1_good_msg.operation = "index" ∧ id c1_good_msg.text ≠ "" ∧ (1 : Nat) ≤ 3) ∧
    ((consume_same id (fun t => [t]) "content_hub" c1_good_msg 3).docs
        = [(c1_doc_key "content_hub" c1_good_msg, c1_doc_body id c1_good_msg)] ∧
     (c1_doc_body id c1_good_msg).status = "processing_vectors" ∧
     (consume_same id (fun t => [t]) "content_hub" c1_good_msg 3).oplog.length = 3 ∧
     ∀ r ∈ (consume_same id (fun t => [t]) "content_hub" c1_good_msg 3).oplog,
       r.status = OplogStatus.PENDING ∧ r.status ≠ OplogStatus.COMPLETED) :=
  ⟨⟨rfl, rfl, by simp [c1_good_msg], by norm_num⟩,
    c1_pass1_replay id (fun t => [t]) "content_hub" c1_good_msg 3 rfl rfl
      (by simp [c1_good_msg]) (by norm_num)⟩

/-- The effects one consumed record contributes to the trace, including its
commit when it succeeds (consumer.py lines 70-124). -/
def record_effects (sanitize : String → String) (chunk : String → List String)
    (default_index : String) (st : IngestState) (m : ConsumerMsg) (pos : Nat) :
    List ConsumerEffect :=
  let step := process_record sanitize chunk default_index st m
  step.2.1 ++ (if step.2.2 then [ConsumerEffect.commit (pos + 1)] else [])

/-- C7 counterexample: with two records on one partition — the first
failing its document upsert, the second fully succeeding — the first
record's commit is skipped, but the second record's
`consumer.commit()` commits position 2, which acknowledges offset 0 as
well: the failed record's offset IS committed as a side effect, contrary
to the claim. -/
theorem c7_counterexample :
    (process_record id (fun t => [t]) "content_hub" empty_ingest_state
        c7_bad_msg).2.2 = false ∧
    last_commit ((consume_loop id (fun t => [t]) "content_hub" empty_ingest_state 0
        [c7_bad_msg, c1_good_msg]).2) = some 2 ∧
    (0 : Nat) < 2 := by
  refine ⟨rfl, ?_, by norm_num⟩
  simp [consume_loop, process_record, last_commit, c7_bad_msg, c1_good_msg,
    empty_ingest_state, es_upsert, resolve_index]

/-- C7 amended: at the failing record itself the discipline holds — for an
index-operation record with truthy sanitized text, the commit effect is
emitted iff parse, document upsert and oplog insert all succeeded, and
then it comes after both write effects; but a later record's commit on the
same partition advances the committed offset past a previously failed
record (see the counterexample), so a raising record's offset can still
become committed. -/
theorem c7_commit_discipline (sanitize : String → String)
    (chunk : String → List String) (default_index : String) (st : IngestState)
    (m : ConsumerMsg) (pos : Nat)
    (hop : m.operation = "index") (htext : sanitize m.text ≠ "") :
    record_effects sanitize chunk default_index st m pos
      = if ¬ m.env.parse_ok then []
        else if ¬ m.env.upsert_ok then []
        else if ¬ m.env.oplog_ok then
          [ConsumerEffect.doc_upsert (resolve_index default_index m.index_name)
            m.entity_id]
        else
          [ConsumerEffect.doc_upsert (resolve_index default_index m.index_name)
            m.entity_id,
           ConsumerEffect.oplog_insert m.entity_id
            (if m.enrichments ≠ [] then "enrich" else "embed"),
           ConsumerEffect.commit (pos + 1)] := by
  cases hp : m.env.parse_ok <;> cases hu : m.env.upsert_ok <;>
    cases ho : m.env.oplog_ok <;>
      simp [record_effects, process_record, hop, htext, hp, hu, ho]

/-- Witness for C7 amended: the all-succeeding concrete record commits
offset 1 after its document upsert and oplog insert. -/
theorem c7_commit_discipline_witness :
    (c1_good_msg.operation = "index" ∧ id c1_good_msg.text ≠ "") ∧
    record_effects id (fun t => [t]) "content_hub" empty_ingest_state c1_good_msg 0
      = [ConsumerEffect.doc_upsert "content_hub" "p1",
         ConsumerEffect.oplog_insert "p1" "embed",
         ConsumerEffect.commit 1] := by
  refine ⟨⟨rfl, by simp [c1_good_msg]⟩, ?_⟩
  rw [c7_commit_discipline id (fun t => [t]) "content_hub" empty_ingest_state
    c1_good_msg 0 rfl (by simp [c1_good_msg])]
  simp [c1_good_msg, resolve_index]

/- ------------------------------------------------------------------
   Search reranking path
   Source: src/services/ingestion/src/ingestion/routers/search.py,
   search_content (lines 19-156), and processors/intelligence.py,
   IntelligenceClient.rerank (lines 120-142).
   ------------------------------------------------------------------ -/

/-- A retrieved Elasticsearch hit as the rerank phase sees it: identifier,
store score, the text candidates used to build the rerank document, and
the `_rerank_score` attached afterwards (search.py lines 82-107). -/
structure SearchHit where
  id : String
  es_score : ℚ
  title : Option String
  summary : Option String
  matched_chunk : Option String
  rerank_score : Option ℚ
  deriving DecidableEq, Repr

/-- A document sent to the reranker: `{id, text, metadata}` where metadata
carries the whole hit (search.py lines 95-99). -/
structure RerankDoc where
  id : String
  text : String
  metadata : SearchHit
  deriving DecidableEq, Repr

/-- An item of the reranker response's `results` list as the search router
reads it: `item['metadata']` and `item.get('score')` (search.py lines
104-106).  In the client's failure fallback the items are the request
documents themselves, which carry no score key — hence score is none
there. -/
structure RerankItem where
  id : String
  score : Option ℚ
  metadata : SearchHit
  deriving DecidableEq, Repr

/-- Python `a or b` for optional strings (empty string is falsy). -/
def or_string : Option String → String → String
  | none, d => d
  | some s, d => if s = "" then d else s

/-- The reranker text choice (search.py lines 85-93): the matched chunk if
present and non-empty, else `summary or title or ""`. -/
def rerank_text (h : SearchHit) : String :=
  match h.matched_chunk with
  | some c => if c ≠ "" then c else or_string h.summary (or_string h.title "")
  | none => or_string h.summary (or_string h.title "")

/-- The rerank document built for a hit (search.py lines 95-99). -/
def mk_rerank_doc (h : SearchHit) : RerankDoc :=
  { id := h.id, text := rerank_text h, metadata := h }

/-- Embeds `IntelligenceClient.rerank` (intelligence.py lines 120-142): the
HTTP call is an oracle — `some items` when the service responds, `none`
when the call raises; every exception is caught and the fallback
`{"results": documents, "latency_ms": 0}` returns the request documents
unchanged (hence with no score). -/
def rerank_client (outcome : Option (List RerankItem)) (docs : List RerankDoc) :
    List RerankItem :=
  match outcome with
  | some items => items
  | none => docs.map (fun d => { id := d.id, score := none, metadata := d.metadata })

/-- Embeds the reranking phase of `search_content` (search.py lines
77-110): when reranking is enabled and there are hits, build the rerank
documents, call the client, and take the first `limit` result items,
re-reading each hit from `item['metadata']` with `_rerank_score =
item.get('score')`.  The Bool records whether the reranker client was
invoked.  The function has no other inputs: the module keeps no
cross-request state (no failure counter, no breaker). -/
def rerank_phase (limit : Nat) (enable_reranking : Bool) (hits : List SearchHit)
    (outcome : Option (List RerankItem)) : List SearchHit × Bool :=
  if enable_reranking ∧ hits ≠ [] then
    let docs := hits.map mk_rerank_doc
    let items := rerank_client outcome docs
    ((items.take limit).map (fun it => { it.metadata with rerank_score := it.score }),
     true)
  else (hits, false)

/-- One search request's inputs to the rerank phase: the request fields,
the retrieved hits, and the reranker-call oracle (`none` = the HTTP call
raised). -/
structure SearchCall where
  limit : Nat
  enable_reranking : Bool
  hits : List SearchHit
  rerank_outcome : Option (List RerankItem)
  deriving DecidableEq, Repr

/-- A sequence of search requests processed by the service: `search_content`
holds no state between requests, so the runs are independent — this map IS
the faithful embedding of consecutive requests to one process. -/
def process_search_requests (calls : List SearchCall) : List (List SearchHit × Bool) :=
  calls.map (fun c => rerank_phase c.limit c.enable_reranking c.hits c.rerank_outcome)

/-- A concrete retrieved hit. -/
def c8_hit : SearchHit :=
  { id := "doc1"
    es_score := 42
    title := some "cats purring"
    summary := some "all about purring"
    matched_chunk := some "cats purr"
    rerank_score := none }

/-- A reranking-enabled request whose reranker call fails. -/
def c8_failing_call : SearchCall :=
  { limit := 5
    enable_reranking := true
    hits := [c8_hit]
    rerank_outcome := none }

/-- C8 counterexample: four consecutive requests whose reranker calls all
fail.  The claim says that after 3 consecutive failures a process-local
circuit breaker opens and the reranker is skipped on subsequent requests;
in the code every request still invokes the reranker (invoked = true for
all four, in particular the fourth), because no failure counter or breaker
exists anywhere in the search path. -/
theorem c8_counterexample :
    c8_failing_call.rerank_outcome = none ∧
    (process_search_requests (List.replicate 4 c8_failing_call)).map Prod.snd
      = [true, true, true, true] ∧
    ¬ ((process_search_requests (List.replicate 4 c8_failing_call)).map Prod.snd
        = [true, true, true, false]) := by
  refine ⟨rfl, ?_, ?_⟩ <;>
    simp [process_search_requests, rerank_phase, c8_failing_call, c8_hit]

/-- C8 amended: there is no circuit breaker — every reranking-enabled
request with hits invokes the reranker regardless of past failures — but
each individual reranker failure degrades gracefully: the fallback returns
the store-ranked hits (first `limit`, in store order, with a null rerank
score) rather than an error. -/
theorem c8_rerank_failure_fallback (limit : Nat) (hits : List SearchHit)
    (hne : hits ≠ []) :
    rerank_phase limit true hits none
      = ((hits.take limit).map (fun h => { h with rerank_score := none }), true) := by
  simp only [rerank_phase, hne, ne_eq, not_false_iff, and_true, if_true,
    rerank_client, true_and]
  rw [List.map_map, ← List.map_take, List.map_map]
  rfl

/-- Witness for C8 amended: a failing rerank call on one concrete hit
returns that hit, store-ranked, with a null rerank score. -/
theorem c8_rerank_failure_fallback_witness :
    ([c8_hit] ≠ ([] : List SearchHit)) ∧
    rerank_phase 5 true [c8_hit] none
      = ([{ c8_hit with rerank_score := none }], true) :=
  ⟨by simp, by
    rw [c8_rerank_failure_fallback 5 [c8_hit] (by simp)]
    simp⟩
